import Mathlib

/-!
Verification of the stamp-maker core against its natural-language
specification.

The development shallowly embeds the TypeScript source:
 - the color-to-alpha transform `removeBackground` from the
   BackgroundRemoval component, with byte channels as integers and the
   normalized [0,1] arithmetic carried out exactly in `ℚ`
   (JavaScript `Math.round` is `⌊x + 1/2⌋`, embedded as `jsRound`);
 - the reference-line state and the operations of the ManualInputs
   component (`updateLineCoordinate`, `addLetterLine`), with JavaScript
   `parseInt` modelled as `jsParseInt`;
 - the export path of the JsonExport component (`validateExportData`,
   `generateStampData`), with JavaScript string trimming modelled as
   `jsTrim` and numeric truthiness (`x && y`, `x || 0`) made explicit.
-/

namespace StampMaker

/-- Clamp a rational to the unit interval, as `Math.max(0, Math.min(1, x))`. -/
def clamp01 (q : ℚ) : ℚ := max 0 (min 1 q)

/-- JavaScript `Math.round`: round half toward positive infinity. -/
def jsRound (q : ℚ) : ℤ := ⌊q + 1 / 2⌋

/-- An RGBA pixel with byte-valued channels (stored as integers). -/
structure RGBA where
  r : ℤ
  g : ℤ
  b : ℤ
  a : ℤ
deriving DecidableEq

/-- A target color sampled from the image: an RGB byte triple. -/
structure RGB where
  r : ℤ
  g : ℤ
  b : ℤ
deriving DecidableEq

/-- The sequential alpha-ratio accumulation of `removeBackground`:
`alphaRatio` starts at 1 and is lowered by each channel whose
(normalized) target value is positive. Arguments are already normalized
to [0,1]. -/
def alphaRatioSeq (tR tG tB r g b : ℚ) : ℚ :=
  let a1 := if tR > 0 then min 1 (r / tR) else 1
  let a2 := if tG > 0 then min a1 (g / tG) else a1
  if tB > 0 then min a2 (b / tB) else a2

/-- The clamped alpha ratio of one pixel:
`alphaRatio = Math.max(0, Math.min(1, alphaRatio))` in the source. -/
def pixelRatioQ (target : RGB) (r g b : ℤ) : ℚ :=
  max 0 (min 1 (alphaRatioSeq ((target.r : ℚ) / 255) ((target.g : ℚ) / 255)
    ((target.b : ℚ) / 255) ((r : ℚ) / 255) ((g : ℚ) / 255) ((b : ℚ) / 255)))

/-- The per-pixel alpha `1 - alphaRatio` of `removeBackground`. -/
def pixelAlphaQ (target : RGB) (r g b : ℤ) : ℚ := 1 - pixelRatioQ target r g b

/-- One reconstructed channel:
`alpha > 0 ? (c - targetC * (1 - alpha)) / alpha : 0`. -/
def reconChannel (alpha tC c : ℚ) : ℚ :=
  if alpha > 0 then (c - tC * (1 - alpha)) / alpha else 0

/-- Per-pixel body of `removeBackground` (BackgroundRemoval component):
normalizes the channels, computes the clamped alpha ratio, reconstructs
each channel, and converts everything back to bytes. -/
def removeBackgroundPixel (target : RGB) (r g b : ℤ) : RGBA :=
  let alpha := pixelAlphaQ target r g b
  let newR := reconChannel alpha ((target.r : ℚ) / 255) ((r : ℚ) / 255)
  let newG := reconChannel alpha ((target.g : ℚ) / 255) ((g : ℚ) / 255)
  let newB := reconChannel alpha ((target.b : ℚ) / 255) ((b : ℚ) / 255)
  ⟨jsRound (clamp01 newR * 255), jsRound (clamp01 newG * 255),
   jsRound (clamp01 newB * 255), jsRound (alpha * 255)⟩

/-- Whole-image `removeBackground`: the loop over the RGBA buffer, as a
map over the pixel list (input alpha is read by no branch of the loop). -/
def removeBackground (target : RGB) (img : List RGBA) : List RGBA :=
  img.map fun p => removeBackgroundPixel target p.r p.g p.b

/-- Does the target color occur in some pixel of the image (the premise
of the no-match scenario in the specification)? -/
def targetOccurs (target : RGB) (img : List RGBA) : Bool :=
  img.any fun p => p.r == target.r && p.g == target.g && p.b == target.b

/-- The ratio of claim C4, written as the specification words it: the
minimum, starting from 1, over the target-positive channels, of
pixelChannel / targetChannel, clamped to [0,1]. -/
def specRatioC4 (target : RGB) (r g b : ℤ) : ℚ :=
  let chans : List (ℚ × ℚ) :=
    [((r : ℚ) / 255, (target.r : ℚ) / 255), ((g : ℚ) / 255, (target.g : ℚ) / 255),
     ((b : ℚ) / 255, (target.b : ℚ) / 255)]
  clamp01 (chans.foldl (fun acc pt => if pt.2 > 0 then min acc (pt.1 / pt.2) else acc) 1)

/-- The per-pixel transform of claim C4, written as the specification
words it: `alpha = 1 - ratio`, reconstruction `clamp01` when
`alpha > 0` and 0 otherwise, output `round(value * 255)`. -/
def specPixelC4 (target : RGB) (r g b : ℤ) : RGBA :=
  let alpha := 1 - specRatioC4 target r g b
  let recR := if alpha > 0 then clamp01 (((r : ℚ) / 255 - (target.r : ℚ) / 255 * (1 - alpha)) / alpha) else 0
  let recG := if alpha > 0 then clamp01 (((g : ℚ) / 255 - (target.g : ℚ) / 255 * (1 - alpha)) / alpha) else 0
  let recB := if alpha > 0 then clamp01 (((b : ℚ) / 255 - (target.b : ℚ) / 255 * (1 - alpha)) / alpha) else 0
  ⟨jsRound (recR * 255), jsRound (recG * 255), jsRound (recB * 255), jsRound (alpha * 255)⟩

theorem clamp01_zero : clamp01 0 = 0 := by norm_num [clamp01]

theorem jsRound_intCast (z : ℤ) : jsRound (z : ℚ) = z := by
  rw [jsRound, Int.floor_int_add]
  norm_num [Int.floor_eq_iff]

theorem specRatioC4_eq (target : RGB) (r g b : ℤ) :
    specRatioC4 target r g b = pixelRatioQ target r g b := by
  unfold specRatioC4 pixelRatioQ alphaRatioSeq clamp01
  simp only [List.foldl]

/-- C4: for every input pixel and target color (channels normalized to
[0,1]), the transform computes the clamped minimum ratio over
target-positive channels starting from 1, sets alpha = 1 - ratio,
reconstructs each channel as clamp01((c - t*(1-alpha))/alpha) when
alpha > 0 and 0 otherwise, and outputs round(value*255); with target
(255,255,255) a (200,200,200) pixel gets alpha byte 55 and an
exact-white pixel gets alpha byte 0. -/
theorem claim_C4_transform_formula :
    (∀ (target : RGB) (r g b : ℤ), specPixelC4 target r g b = removeBackgroundPixel target r g b) ∧
    (removeBackgroundPixel ⟨255, 255, 255⟩ 200 200 200).a = 55 ∧
    (removeBackgroundPixel ⟨255, 255, 255⟩ 255 255 255).a = 0 := by
  refine ⟨fun target r g b => ?_, ?_, ?_⟩
  · unfold specPixelC4 removeBackgroundPixel pixelAlphaQ
    rw [specRatioC4_eq]
    by_cases h : 1 - pixelRatioQ target r g b > 0 <;>
      simp [reconChannel, h, clamp01_zero]
  · norm_num [removeBackgroundPixel, pixelAlphaQ, pixelRatioQ, alphaRatioSeq, reconChannel,
      clamp01, jsRound, min_def, max_def, Int.floor_eq_iff]
  · norm_num [removeBackgroundPixel, pixelAlphaQ, pixelRatioQ, alphaRatioSeq, reconChannel,
      clamp01, jsRound, min_def, max_def, Int.floor_eq_iff]

theorem pixelRatioQ_black (r g b : ℤ) : pixelRatioQ ⟨0, 0, 0⟩ r g b = 1 := by
  norm_num [pixelRatioQ, alphaRatioSeq, min_def, max_def]

theorem removeBackgroundPixel_of_alpha_zero (target : RGB) (r g b : ℤ)
    (h : pixelAlphaQ target r g b = 0) :
    removeBackgroundPixel target r g b = ⟨0, 0, 0, 0⟩ := by
  unfold removeBackgroundPixel
  rw [h]
  norm_num [reconChannel, clamp01_zero, jsRound, Int.floor_eq_iff]

theorem removeBackgroundPixel_black (r g b : ℤ) :
    removeBackgroundPixel ⟨0, 0, 0⟩ r g b = ⟨0, 0, 0, 0⟩ :=
  removeBackgroundPixel_of_alpha_zero _ _ _ _ (by
    rw [pixelAlphaQ, pixelRatioQ_black] ; norm_num)

/-- C7 counterexample: with target (0,0,0) the transform is not a no-op;
an opaque (200,100,50) pixel is replaced by fully transparent black. -/
theorem claim_C7_counterexample :
    removeBackground ⟨0, 0, 0⟩ [⟨200, 100, 50, 255⟩] = [⟨0, 0, 0, 0⟩] ∧
    removeBackground ⟨0, 0, 0⟩ [⟨200, 100, 50, 255⟩] ≠ [⟨200, 100, 50, 255⟩] := by
  constructor
  · simp [removeBackground, removeBackgroundPixel_black]
  · simp [removeBackground, removeBackgroundPixel_black]

/-- C7 amended: when the target color is (0,0,0), every per-channel
"target > 0" test is false, so for every pixel the clamped ratio stays 1
and the output alpha byte is 0; every output pixel is RGBA (0,0,0,0)
(the image is made fully transparent, not left unchanged), with no
special-case branch for black. -/
theorem claim_C7_black_target : ∀ (r g b : ℤ),
    pixelRatioQ ⟨0, 0, 0⟩ r g b = 1 ∧
    pixelAlphaQ ⟨0, 0, 0⟩ r g b = 0 ∧
    removeBackgroundPixel ⟨0, 0, 0⟩ r g b = ⟨0, 0, 0, 0⟩ := by
  intro r g b
  refine ⟨pixelRatioQ_black r g b, ?_, removeBackgroundPixel_black r g b⟩
  rw [pixelAlphaQ, pixelRatioQ_black]
  norm_num

/-- C10: for every pixel whose computed alpha is 0 (the ratio clamps
to 1), the transform outputs RGBA (0,0,0,0): the original RGB is
discarded and replaced by transparent black rather than passed
through. -/
theorem claim_C10_alpha_zero_transparent_black (target : RGB) (r g b : ℤ)
    (h : pixelAlphaQ target r g b = 0) :
    pixelRatioQ target r g b = 1 ∧ removeBackgroundPixel target r g b = ⟨0, 0, 0, 0⟩ := by
  refine ⟨?_, removeBackgroundPixel_of_alpha_zero target r g b h⟩
  have := h
  rw [pixelAlphaQ] at this
  linarith

/-- Witness for C10 at target (255,255,255) and an exact-white pixel. -/
theorem claim_C10_witness :
    pixelRatioQ ⟨255, 255, 255⟩ 255 255 255 = 1 ∧
    removeBackgroundPixel ⟨255, 255, 255⟩ 255 255 255 = ⟨0, 0, 0, 0⟩ :=
  claim_C10_alpha_zero_transparent_black ⟨255, 255, 255⟩ 255 255 255 (by
    norm_num [pixelAlphaQ, pixelRatioQ, alphaRatioSeq, min_def, max_def])

theorem ite_min_le (c : Prop) [Decidable c] (a x : ℚ) : (if c then min a x else a) ≤ a := by
  split_ifs
  · exact min_le_left _ _
  · exact le_rfl

theorem alphaRatioSeq_nonneg (tR tG tB r g b : ℚ) (hr : 0 ≤ r) (hg : 0 ≤ g) (hb : 0 ≤ b) :
    0 ≤ alphaRatioSeq tR tG tB r g b := by
  unfold alphaRatioSeq
  by_cases h1 : tR > 0 <;> by_cases h2 : tG > 0 <;> by_cases h3 : tB > 0
  all_goals simp only [h1, h2, h3, if_true, if_false, le_min_iff]
  all_goals repeat' apply And.intro
  all_goals first
    | exact zero_le_one
    | exact div_nonneg hr (le_of_lt h1)
    | exact div_nonneg hg (le_of_lt h2)
    | exact div_nonneg hb (le_of_lt h3)

theorem alphaRatioSeq_nonpos_of_zero (tR tG tB r g b : ℚ)
    (h : (r = 0 ∧ 0 < tR) ∨ (g = 0 ∧ 0 < tG) ∨ (b = 0 ∧ 0 < tB)) :
    alphaRatioSeq tR tG tB r g b ≤ 0 := by
  unfold alphaRatioSeq
  rcases h with ⟨h0, hpos⟩ | ⟨h0, hpos⟩ | ⟨h0, hpos⟩
  · refine le_trans (ite_min_le _ _ _) (le_trans (ite_min_le _ _ _) ?_)
    rw [if_pos hpos, h0, zero_div]
    exact min_le_right _ _
  · refine le_trans (ite_min_le _ _ _) ?_
    rw [if_pos hpos, h0, zero_div]
    exact min_le_right _ _
  · rw [if_pos hpos, h0, zero_div]
    exact min_le_right _ _

theorem pixelRatioQ_eq_zero (target : RGB) (r g b : ℤ)
    (hr : 0 ≤ r) (hg : 0 ≤ g) (hb : 0 ≤ b)
    (h : (r = 0 ∧ 0 < target.r) ∨ (g = 0 ∧ 0 < target.g) ∨ (b = 0 ∧ 0 < target.b)) :
    pixelRatioQ target r g b = 0 := by
  have hge : 0 ≤ alphaRatioSeq ((target.r : ℚ) / 255) ((target.g : ℚ) / 255)
      ((target.b : ℚ) / 255) ((r : ℚ) / 255) ((g : ℚ) / 255) ((b : ℚ) / 255) := by
    refine alphaRatioSeq_nonneg _ _ _ _ _ _ ?_ ?_ ?_ <;>
      refine div_nonneg ?_ (by norm_num)
    · exact_mod_cast hr
    · exact_mod_cast hg
    · exact_mod_cast hb
  have hle : alphaRatioSeq ((target.r : ℚ) / 255) ((target.g : ℚ) / 255)
      ((target.b : ℚ) / 255) ((r : ℚ) / 255) ((g : ℚ) / 255) ((b : ℚ) / 255) ≤ 0 := by
    refine alphaRatioSeq_nonpos_of_zero _ _ _ _ _ _ ?_
    rcases h with ⟨h0, hpos⟩ | ⟨h0, hpos⟩ | ⟨h0, hpos⟩
    · exact Or.inl ⟨by rw [h0] ; norm_num, div_pos (by exact_mod_cast hpos) (by norm_num)⟩
    · exact Or.inr (Or.inl ⟨by rw [h0] ; norm_num, div_pos (by exact_mod_cast hpos) (by norm_num)⟩)
    · exact Or.inr (Or.inr ⟨by rw [h0] ; norm_num, div_pos (by exact_mod_cast hpos) (by norm_num)⟩)
  rw [pixelRatioQ, le_antisymm hle hge]
  norm_num

theorem byte_channel_roundtrip (c : ℤ) (h0 : 0 ≤ c) (h1 : c ≤ 255) (tC : ℚ) :
    jsRound (clamp01 (reconChannel 1 tC ((c : ℚ) / 255)) * 255) = c := by
  have hrc : reconChannel 1 tC ((c : ℚ) / 255) = (c : ℚ) / 255 := by
    rw [reconChannel, if_pos one_pos]
    norm_num
  have hmin : min 1 ((c : ℚ) / 255) = (c : ℚ) / 255 := by
    refine min_eq_right ?_
    rw [div_le_one (by norm_num : (0:ℚ) < 255)]
    exact_mod_cast h1
  have hmax : max 0 ((c : ℚ) / 255) = (c : ℚ) / 255 := by
    refine max_eq_right (div_nonneg ?_ (by norm_num))
    exact_mod_cast h0
  rw [hrc, clamp01, hmin, hmax, div_mul_cancel₀ _ (by norm_num : (255:ℚ) ≠ 0)]
  exact jsRound_intCast c

theorem removeBackgroundPixel_zero_channel (target : RGB) (r g b : ℤ)
    (hr : 0 ≤ r) (hr' : r ≤ 255) (hg : 0 ≤ g) (hg' : g ≤ 255) (hb : 0 ≤ b) (hb' : b ≤ 255)
    (h : (r = 0 ∧ 0 < target.r) ∨ (g = 0 ∧ 0 < target.g) ∨ (b = 0 ∧ 0 < target.b)) :
    removeBackgroundPixel target r g b = ⟨r, g, b, 255⟩ := by
  have hρ : pixelRatioQ target r g b = 0 := pixelRatioQ_eq_zero target r g b hr hg hb h
  have hα : pixelAlphaQ target r g b = 1 := by rw [pixelAlphaQ, hρ] ; norm_num
  unfold removeBackgroundPixel
  rw [hα]
  simp only [RGBA.mk.injEq]
  refine ⟨byte_channel_roundtrip r hr hr' _, byte_channel_roundtrip g hg hg' _,
    byte_channel_roundtrip b hb hb' _, ?_⟩
  norm_num [jsRound, Int.floor_eq_iff]

/-- C5 counterexample: a 1-pixel image (200,200,200) under target
(255,255,255): the target occurs in no pixel, yet the output is
(0,0,0,55), not the input with alpha byte 255. -/
theorem claim_C5_counterexample :
    targetOccurs ⟨255, 255, 255⟩ [⟨200, 200, 200, 255⟩] = false ∧
    removeBackground ⟨255, 255, 255⟩ [⟨200, 200, 200, 255⟩] = [⟨0, 0, 0, 55⟩] ∧
    ([⟨0, 0, 0, 55⟩] : List RGBA) ≠ [⟨200, 200, 200, 255⟩] := by
  refine ⟨by decide, ?_, by decide⟩
  simp only [removeBackground, List.map]
  norm_num [removeBackgroundPixel, pixelAlphaQ, pixelRatioQ, alphaRatioSeq, reconChannel,
    clamp01, jsRound, min_def, max_def, Int.floor_eq_iff]

theorem channel_zero_of_div_small (c t : ℤ) (hc : 0 ≤ c) (ht' : t ≤ 255)
    (htq : 0 < (t : ℚ) / 255) (h : ((c : ℚ) / 255) / ((t : ℚ) / 255) ≤ 1 / 510) :
    c = 0 := by
  have ht : (0:ℚ) < (t : ℚ) := by
    by_contra hcon
    push_neg at hcon
    have : (t : ℚ) / 255 ≤ 0 := div_nonpos_of_nonpos_of_nonneg hcon (by norm_num)
    linarith
  have hne : (t : ℚ) ≠ 0 := ne_of_gt ht
  rw [div_div_div_cancel_right₀ (by norm_num : (255:ℚ) ≠ 0)] at h
  rw [div_le_div_iff₀ ht (by norm_num : (0:ℚ) < 510)] at h
  have hint : c * 510 ≤ 1 * t := by exact_mod_cast h
  omega

theorem alphaRatioSeq_small_cases (tR tG tB r g b : ℚ)
    (h : alphaRatioSeq tR tG tB r g b ≤ 1 / 510) :
    (0 < tR ∧ r / tR ≤ 1 / 510) ∨ (0 < tG ∧ g / tG ≤ 1 / 510) ∨
      (0 < tB ∧ b / tB ≤ 1 / 510) := by
  unfold alphaRatioSeq at h
  by_cases h1 : tR > 0 <;> by_cases h2 : tG > 0 <;> by_cases h3 : tB > 0
  all_goals simp only [h1, h2, h3, if_true, if_false, min_le_iff] at h
  · rcases h with ((h | h) | h) | h
    · norm_num at h
    · exact Or.inl ⟨h1, h⟩
    · exact Or.inr (Or.inl ⟨h2, h⟩)
    · exact Or.inr (Or.inr ⟨h3, h⟩)
  · rcases h with (h | h) | h
    · norm_num at h
    · exact Or.inl ⟨h1, h⟩
    · exact Or.inr (Or.inl ⟨h2, h⟩)
  · rcases h with (h | h) | h
    · norm_num at h
    · exact Or.inl ⟨h1, h⟩
    · exact Or.inr (Or.inr ⟨h3, h⟩)
  · rcases h with h | h
    · norm_num at h
    · exact Or.inl ⟨h1, h⟩
  · rcases h with (h | h) | h
    · norm_num at h
    · exact Or.inr (Or.inl ⟨h2, h⟩)
    · exact Or.inr (Or.inr ⟨h3, h⟩)
  · rcases h with h | h
    · norm_num at h
    · exact Or.inr (Or.inl ⟨h2, h⟩)
  · rcases h with h | h
    · norm_num at h
    · exact Or.inr (Or.inr ⟨h3, h⟩)
  · norm_num at h

theorem zero_channel_of_ratio_small (target : RGB) (r g b : ℤ)
    (hr : 0 ≤ r) (hg : 0 ≤ g) (hb : 0 ≤ b)
    (htr : target.r ≤ 255) (htg : target.g ≤ 255) (htb : target.b ≤ 255)
    (h : pixelRatioQ target r g b ≤ 1 / 510) :
    (r = 0 ∧ 0 < target.r) ∨ (g = 0 ∧ 0 < target.g) ∨ (b = 0 ∧ 0 < target.b) := by
  have hraw : alphaRatioSeq ((target.r : ℚ) / 255) ((target.g : ℚ) / 255)
      ((target.b : ℚ) / 255) ((r : ℚ) / 255) ((g : ℚ) / 255) ((b : ℚ) / 255) ≤ 1 / 510 := by
    set raw := alphaRatioSeq ((target.r : ℚ) / 255) ((target.g : ℚ) / 255)
      ((target.b : ℚ) / 255) ((r : ℚ) / 255) ((g : ℚ) / 255) ((b : ℚ) / 255) with hdef
    have hmin : min 1 raw ≤ 1 / 510 := le_trans (le_max_right 0 _) h
    rcases min_le_iff.mp hmin with h' | h'
    · norm_num at h'
    · exact h'
  rcases alphaRatioSeq_small_cases _ _ _ _ _ _ hraw with ⟨hpos, hle⟩ | ⟨hpos, hle⟩ | ⟨hpos, hle⟩
  · refine Or.inl ⟨channel_zero_of_div_small r target.r hr htr hpos hle, ?_⟩
    have : (0:ℚ) < (target.r : ℚ) := by
      by_contra hcon
      push_neg at hcon
      have : (target.r : ℚ) / 255 ≤ 0 := div_nonpos_of_nonpos_of_nonneg hcon (by norm_num)
      linarith
    exact_mod_cast this
  · refine Or.inr (Or.inl ⟨channel_zero_of_div_small g target.g hg htg hpos hle, ?_⟩)
    have : (0:ℚ) < (target.g : ℚ) := by
      by_contra hcon
      push_neg at hcon
      have : (target.g : ℚ) / 255 ≤ 0 := div_nonpos_of_nonpos_of_nonneg hcon (by norm_num)
      linarith
    exact_mod_cast this
  · refine Or.inr (Or.inr ⟨channel_zero_of_div_small b target.b hb htb hpos hle, ?_⟩)
    have : (0:ℚ) < (target.b : ℚ) := by
      by_contra hcon
      push_neg at hcon
      have : (target.b : ℚ) / 255 ≤ 0 := div_nonpos_of_nonpos_of_nonneg hcon (by norm_num)
      linarith
    exact_mod_cast this

theorem ratio_small_of_alpha_byte_255 (target : RGB) (r g b : ℤ)
    (ha : (removeBackgroundPixel target r g b).a = 255) :
    pixelRatioQ target r g b ≤ 1 / 510 := by
  have haq : jsRound (pixelAlphaQ target r g b * 255) = 255 := ha
  have hfl := Int.floor_le (pixelAlphaQ target r g b * 255 + 1 / 2)
  rw [jsRound] at haq
  rw [haq] at hfl
  rw [pixelAlphaQ] at hfl
  push_cast at hfl
  linarith

/-- C5 amended: a pixel keeps its RGB and gets output alpha byte 255
exactly when some channel of the pixel is 0 while the corresponding
target channel is positive. Sufficiency is stated for every image all of
whose pixels satisfy the zero-channel condition; necessity for every
byte pixel whose output alpha byte is 255. Absence of the target color
from the image guarantees neither. -/
theorem claim_C5_amended_zero_channel :
    (∀ (target : RGB) (img : List RGBA),
      (∀ p ∈ img, 0 ≤ p.r ∧ p.r ≤ 255 ∧ 0 ≤ p.g ∧ p.g ≤ 255 ∧ 0 ≤ p.b ∧ p.b ≤ 255) →
      (∀ p ∈ img,
        (p.r = 0 ∧ 0 < target.r) ∨ (p.g = 0 ∧ 0 < target.g) ∨ (p.b = 0 ∧ 0 < target.b)) →
      removeBackground target img = img.map fun p => ⟨p.r, p.g, p.b, 255⟩) ∧
    (∀ (target : RGB) (r g b : ℤ),
      0 ≤ r → 0 ≤ g → 0 ≤ b →
      target.r ≤ 255 → target.g ≤ 255 → target.b ≤ 255 →
      (removeBackgroundPixel target r g b).a = 255 →
      (r = 0 ∧ 0 < target.r) ∨ (g = 0 ∧ 0 < target.g) ∨ (b = 0 ∧ 0 < target.b)) := by
  constructor
  · intro target img hbound hzero
    unfold removeBackground
    refine List.map_congr_left fun p hp => ?_
    obtain ⟨h1, h2, h3, h4, h5, h6⟩ := hbound p hp
    exact removeBackgroundPixel_zero_channel target p.r p.g p.b h1 h2 h3 h4 h5 h6 (hzero p hp)
  · intro target r g b hr hg hb htr htg htb ha
    exact zero_channel_of_ratio_small target r g b hr hg hb htr htg htb
      (ratio_small_of_alpha_byte_255 target r g b ha)

/-- Witness for C5 (amended): both directions at concrete inputs — the
passthrough of a 1-pixel image under a red target, and the necessity
direction at a white target on pixel (0,10,20), whose output alpha byte
is 255. -/
theorem claim_C5_witness :
    (removeBackground ⟨255, 0, 0⟩ [⟨0, 7, 9, 255⟩]
      = ([⟨0, 7, 9, 255⟩] : List RGBA).map fun p => ⟨p.r, p.g, p.b, 255⟩) ∧
    (((0:ℤ) = 0 ∧ (0:ℤ) < 255) ∨ ((10:ℤ) = 0 ∧ (0:ℤ) < 255) ∨
      ((20:ℤ) = 0 ∧ (0:ℤ) < 255)) :=
  ⟨claim_C5_amended_zero_channel.1 ⟨255, 0, 0⟩ [⟨0, 7, 9, 255⟩] (by decide) (by decide),
   claim_C5_amended_zero_channel.2 ⟨255, 255, 255⟩ 0 10 20 (by norm_num) (by norm_num)
     (by norm_num) (by norm_num) (by norm_num) (by norm_num)
     (by rw [removeBackgroundPixel_zero_channel ⟨255, 255, 255⟩ 0 10 20 (by norm_num)
       (by norm_num) (by norm_num) (by norm_num) (by norm_num) (by norm_num)
       (Or.inl ⟨rfl, by norm_num⟩)])⟩

/-- C6: a pixel whose output alpha byte is 255 is left entirely
unchanged (same RGBA) by a second application of the transform with the
same target. -/
theorem claim_C6_opaque_idempotent (target : RGB) (r g b : ℤ)
    (hr : 0 ≤ r) (hr' : r ≤ 255) (hg : 0 ≤ g) (hg' : g ≤ 255) (hb : 0 ≤ b) (hb' : b ≤ 255)
    (htr : target.r ≤ 255) (htg : target.g ≤ 255) (htb : target.b ≤ 255)
    (ha : (removeBackgroundPixel target r g b).a = 255) :
    removeBackgroundPixel target (removeBackgroundPixel target r g b).r
      (removeBackgroundPixel target r g b).g (removeBackgroundPixel target r g b).b
      = removeBackgroundPixel target r g b := by
  have hzero := zero_channel_of_ratio_small target r g b hr hg hb htr htg htb
    (ratio_small_of_alpha_byte_255 target r g b ha)
  have hpass : removeBackgroundPixel target r g b = ⟨r, g, b, 255⟩ :=
    removeBackgroundPixel_zero_channel target r g b hr hr' hg hg' hb hb' hzero
  rw [hpass]
  exact hpass

/-- Witness for C6: white target, pixel (0,10,20) comes out fully
opaque (alpha byte 255) and a second application leaves it unchanged. -/
theorem claim_C6_witness :
    removeBackgroundPixel ⟨255, 255, 255⟩ (removeBackgroundPixel ⟨255, 255, 255⟩ 0 10 20).r
      (removeBackgroundPixel ⟨255, 255, 255⟩ 0 10 20).g
      (removeBackgroundPixel ⟨255, 255, 255⟩ 0 10 20).b
      = removeBackgroundPixel ⟨255, 255, 255⟩ 0 10 20 := by
  refine claim_C6_opaque_idempotent ⟨255, 255, 255⟩ 0 10 20 (by norm_num) (by norm_num)
    (by norm_num) (by norm_num) (by norm_num) (by norm_num) (by norm_num) (by norm_num)
    (by norm_num) ?_
  have : removeBackgroundPixel ⟨255, 255, 255⟩ 0 10 20 = ⟨0, 10, 20, 255⟩ :=
    removeBackgroundPixel_zero_channel ⟨255, 255, 255⟩ 0 10 20 (by norm_num) (by norm_num)
      (by norm_num) (by norm_num) (by norm_num) (by norm_num) (Or.inl ⟨rfl, by norm_num⟩)
  rw [this]

/-- Longest leading run of decimal digits of a character list, as the
digit-reading core of JavaScript `parseInt`; `none` models `NaN`. -/
def jsDigits (cs : List Char) : Option ℕ :=
  let ds := cs.takeWhile Char.isDigit
  if ds = [] then none
  else some (ds.foldl (fun acc c => 10 * acc + (c.toNat - 48)) 0)

/-- JavaScript `parseInt` on the base-10 strings this UI produces:
optional sign, then the longest leading digit run; `none` models `NaN`
(so `parseInt("3.7") = 3` and `parseInt("abc")` is `NaN`). -/
def jsParseInt (s : String) : Option ℤ :=
  match s.toList with
  | '-' :: rest => (jsDigits rest).map fun n => -(n : ℤ)
  | '+' :: rest => (jsDigits rest).map fun n => (n : ℤ)
  | l => (jsDigits l).map fun n => (n : ℤ)

/-- ASCII whitespace, for modelling JavaScript string trimming. -/
def jsIsWs (c : Char) : Bool := c == ' ' || c == '\t' || c == '\n' || c == '\r'

/-- JavaScript `String.prototype.trim` (ASCII whitespace suffices for the
strings appearing here). -/
def jsTrim (s : String) : String :=
  String.mk (((s.toList.dropWhile jsIsWs).reverse.dropWhile jsIsWs).reverse)

/-- Numeric truthiness of an optional coordinate: a JavaScript number is
truthy iff it is neither `null` nor 0. -/
def jsTruthy (o : Option ℤ) : Bool :=
  match o with
  | some v => v != 0
  | none => false

/-- JavaScript `x || d` on an optional number: `d` when `x` is null or 0. -/
def jsNumOr (o : Option ℤ) (d : ℤ) : ℤ :=
  match o with
  | some v => if v = 0 then d else v
  | none => d

/-- The `lines` slice of the application state: each reference line is
either unset (`none`) or an integer coordinate, plus the letter-line
list. -/
structure Lines where
  headerBottom : Option ℤ
  footerTop : Option ℤ
  textLine : Option ℤ
  baseline : Option ℤ
  topLine : Option ℤ
  leftStart : Option ℤ
  rightStart : Option ℤ
  letterLines : List ℤ
deriving DecidableEq

/-- The loaded image's pixel dimensions. -/
structure Dims where
  width : ℤ
  height : ℤ
deriving DecidableEq

/-- The `validateExportData` callback of the JsonExport component: one
message per unmet precondition, in source order. -/
def validateExportData (name : String) (processed original : Bool) (l : Lines) : List String :=
  (if jsTrim name = "" then ["Stamp name is required"] else []) ++
  (if !processed && !original then ["No image loaded"] else []) ++
  (if l.headerBottom = none then ["Header bottom line is required"] else []) ++
  (if l.footerTop = none then ["Footer top line is required"] else []) ++
  (if l.textLine = none then ["Text line is required"] else []) ++
  (if l.baseline = none then ["Baseline is required"] else []) ++
  (if l.leftStart = none then ["Left start line is required"] else []) ++
  (if l.rightStart = none then ["Right start line is required"] else [])

/-- A coordinate object `{x, y}` as emitted by the export code; `x` is
copied from a possibly-unset line, `y` is always a number. -/
structure JCoord where
  x : Option ℤ
  y : ℤ
deriving DecidableEq

/-- The stamp record assembled by `generateStampData`. -/
structure StampData where
  name : String
  type : String
  headerBottom : Option ℤ
  footerTop : Option ℤ
  fontSize : ℤ
  referenceHeight : ℤ
  leftStart : List JCoord
  rightStart : List JCoord
  baseCoordinate : List (List JCoord)
  offsetX : ℤ
  offsetY : ℤ
  imageData : String
deriving DecidableEq

/-- The `generateStampData` callback of the JsonExport component. Field
values follow the source: fontSize is `Math.abs(baseline - textLine)`
when both are truthy and 32 otherwise; `leftStart` and `rightStart` are
one-element arrays and `baseCoordinate` a nested array, all with
`y = baseline || 0`; the PNG data URL comes from the canvas collaborator
and is passed in as an opaque string; missing image dimensions throw
(`none`). -/
def generateStampData (dims : Option Dims) (l : Lines) (name : String)
    (imageDataUrl : String) : Option StampData :=
  match dims with
  | none => none
  | some d =>
    let fontSize : ℤ :=
      if jsTruthy l.baseline && jsTruthy l.textLine then
        |jsNumOr l.baseline 0 - jsNumOr l.textLine 0|
      else 32
    let baseCoordinate : List (List JCoord) :=
      [l.letterLines.map fun x => ⟨some x, jsNumOr l.baseline 0⟩]
    some
      { name := jsTrim name
        type := "SYNDICATE"
        headerBottom := l.headerBottom
        footerTop := l.footerTop
        fontSize := fontSize
        referenceHeight := d.height
        leftStart := [⟨l.leftStart, jsNumOr l.baseline 0⟩]
        rightStart := [⟨l.rightStart, jsNumOr l.baseline 0⟩]
        baseCoordinate := baseCoordinate
        offsetX := 0
        offsetY := 0
        imageData := imageDataUrl }

/-- The names accepted by `updateLineCoordinate`. -/
inductive LineName
  | headerBottom
  | footerTop
  | textLine
  | baseline
  | topLine
  | leftStart
  | rightStart
deriving DecidableEq

/-- The display name used inside error messages. -/
def lineNameStr : LineName → String
  | .headerBottom => "headerBottom"
  | .footerTop => "footerTop"
  | .textLine => "textLine"
  | .baseline => "baseline"
  | .topLine => "topLine"
  | .leftStart => "leftStart"
  | .rightStart => "rightStart"

/-- The membership test
`['headerBottom','footerTop','textLine','baseline','topLine'].includes(lineType)`. -/
def isHorizontalLine : LineName → Bool
  | .headerBottom | .footerTop | .textLine | .baseline | .topLine => true
  | .leftStart | .rightStart => false

/-- Read the named line of the state. -/
def getLine (l : Lines) : LineName → Option ℤ
  | .headerBottom => l.headerBottom
  | .footerTop => l.footerTop
  | .textLine => l.textLine
  | .baseline => l.baseline
  | .topLine => l.topLine
  | .leftStart => l.leftStart
  | .rightStart => l.rightStart

/-- The computed-key update `{ ...lines, [lineType]: v }`. -/
def setLine (l : Lines) : LineName → Option ℤ → Lines
  | .headerBottom, v => { l with headerBottom := v }
  | .footerTop, v => { l with footerTop := v }
  | .textLine, v => { l with textLine := v }
  | .baseline, v => { l with baseline := v }
  | .topLine, v => { l with topLine := v }
  | .leftStart, v => { l with leftStart := v }
  | .rightStart, v => { l with rightStart := v }

/-- The `validateCoordinate(value, dimension)` callback of ManualInputs:
false when no image is loaded, otherwise `0 ≤ value ≤ max` where `max`
is the image height for the 'height' dimension and the width
otherwise. -/
def validateCoordinate (dims : Option Dims) (value : ℤ) (dimIsHeight : Bool) : Bool :=
  match dims with
  | none => false
  | some d => decide (0 ≤ value) && decide (value ≤ if dimIsHeight then d.height else d.width)

/-- The slice of component state that the ManualInputs callbacks touch:
the line set and the UI error message. -/
structure MIState where
  lines : Lines
  error : Option String
deriving DecidableEq

/-- The out-of-bounds message of `updateLineCoordinate`. -/
def coordErrMsg (t : LineName) (dims : Option Dims) (dimIsHeight : Bool) : String :=
  lineNameStr t ++ " coordinate must be between 0 and " ++
    toString (match dims with
      | some d => if dimIsHeight then d.height else d.width
      | none => 0)

/-- The `updateLineCoordinate` callback of ManualInputs: `parseInt`,
clear on `NaN`, reject out-of-bounds with an error message, else store
the parsed value and clear the error. -/
def updateLineCoordinate (dims : Option Dims) (s : MIState) (t : LineName) (value : String) :
    MIState :=
  match jsParseInt value with
  | none => { s with lines := setLine s.lines t none }
  | some n =>
    if !(validateCoordinate dims n (isHorizontalLine t)) then
      { s with error := some (coordErrMsg t dims (isHorizontalLine t)) }
    else
      { lines := setLine s.lines t (some n), error := none }

/-- The out-of-bounds message of `addLetterLine`. -/
def letterErrMsg (dims : Option Dims) : String :=
  "Letter line X coordinate must be between 0 and " ++
    toString (match dims with
      | some d => d.width
      | none => 0)

/-- The `addLetterLine` callback of ManualInputs: `parseInt`, silently
ignore `NaN`, reject out-of-width values with an error, skip exact
duplicates, else append and sort ascending. -/
def addLetterLine (dims : Option Dims) (s : MIState) (value : String) : MIState :=
  match jsParseInt value with
  | none => s
  | some n =>
    if !(validateCoordinate dims n false) then
      { s with error := some (letterErrMsg dims) }
    else if n ∈ s.lines.letterLines then s
    else
      { lines :=
          { s.lines with
            letterLines := List.insertionSort (· ≤ ·) (s.lines.letterLines ++ [n]) }
        error := none }

/-- A line state with nothing placed. -/
def emptyLines : Lines := ⟨none, none, none, none, none, none, none, []⟩

/-- The five lines of claims C1 and C3 set; baseline and topLine unset. -/
def linesNoBaseline : Lines :=
  { headerBottom := some 100, footerTop := some 200, textLine := some 150,
    baseline := none, topLine := none, leftStart := some 10, rightStart := some 20,
    letterLines := [] }

/-- C1 (code-bug evidence): with headerBottom=100, footerTop=200,
textLine=150 and baseline/topLine unset, generateStampData emits
fontSize 32 — its hard-coded default, reached because fontSize is
computed from `baseline`, not from `textLine - resolvedTopLine()` — and
not the 51 that the claim and the repository's design documents
require. -/
theorem claim_C1_fontSize_bug :
    (generateStampData (some ⟨800, 600⟩) linesNoBaseline "stamp" "img").map StampData.fontSize
      = some 32 ∧
    (32 : ℤ) ≠ 51 := by
  exact ⟨rfl, by decide⟩

/-- The line set of the design document's worked export example. -/
def linesC2 : Lines :=
  { headerBottom := some 150, footerTop := some 250, textLine := some 225,
    baseline := none, topLine := none, leftStart := some 100, rightStart := some 700,
    letterLines := [150, 250] }

/-- C2 (code-bug evidence): the source wraps leftStart and rightStart in
one-element arrays and baseCoordinate in a nested array, and uses
`y = baseline || 0` (here 0) instead of `y = textLine` (here 225). -/
theorem claim_C2_record_shape_bug :
    (generateStampData (some ⟨800, 600⟩) linesC2 "stamp" "img").map StampData.leftStart
      = some [⟨some 100, 0⟩] ∧
    (generateStampData (some ⟨800, 600⟩) linesC2 "stamp" "img").map StampData.rightStart
      = some [⟨some 700, 0⟩] ∧
    (generateStampData (some ⟨800, 600⟩) linesC2 "stamp" "img").map StampData.baseCoordinate
      = some [[⟨some 150, 0⟩, ⟨some 250, 0⟩]] ∧
    (0 : ℤ) ≠ 225 := by
  exact ⟨rfl, rfl, rfl, by decide⟩

/-- C3 counterexample: the five lines named by the claim are set, the
name is non-empty and an image is loaded, yet export fails because the
code also requires `baseline`. -/
theorem claim_C3_counterexample :
    validateExportData "stamp" true true linesNoBaseline = ["Baseline is required"] ∧
    validateExportData "stamp" true true linesNoBaseline ≠ [] := by
  exact ⟨by decide, by decide⟩

theorem ite_singleton_eq_nil (c : Prop) [Decidable c] (m : String) :
    (if c then [m] else []) = [] ↔ ¬c := by
  split_ifs with h <;> simp [h]

theorem mem_ite_singleton (x m : String) (c : Prop) [Decidable c] :
    x ∈ (if c then [m] else []) ↔ c ∧ x = m := by
  split_ifs with h <;> simp [h]

/-- C3 amended: export fails exactly when the trimmed name is empty, no
image is loaded, or one of headerBottom, footerTop, textLine, baseline,
leftStart, rightStart is unset (topLine alone may stay unset), and the
report enumerates every unmet precondition: each message is present iff
its condition fails. -/
theorem claim_C3_amended_validation (name : String) (processed original : Bool) (l : Lines) :
    (validateExportData name processed original l = [] ↔
      (jsTrim name ≠ "" ∧ (processed = true ∨ original = true) ∧
        l.headerBottom ≠ none ∧ l.footerTop ≠ none ∧ l.textLine ≠ none ∧
        l.baseline ≠ none ∧ l.leftStart ≠ none ∧ l.rightStart ≠ none)) ∧
    ("Stamp name is required" ∈ validateExportData name processed original l ↔
      jsTrim name = "") ∧
    ("No image loaded" ∈ validateExportData name processed original l ↔
      (processed = false ∧ original = false)) ∧
    ("Header bottom line is required" ∈ validateExportData name processed original l ↔
      l.headerBottom = none) ∧
    ("Footer top line is required" ∈ validateExportData name processed original l ↔
      l.footerTop = none) ∧
    ("Text line is required" ∈ validateExportData name processed original l ↔
      l.textLine = none) ∧
    ("Baseline is required" ∈ validateExportData name processed original l ↔
      l.baseline = none) ∧
    ("Left start line is required" ∈ validateExportData name processed original l ↔
      l.leftStart = none) ∧
    ("Right start line is required" ∈ validateExportData name processed original l ↔
      l.rightStart = none) := by
  refine ⟨?_, ?_, ?_, ?_, ?_, ?_, ?_, ?_, ?_⟩ <;>
    cases processed <;> cases original <;>
    simp +decide [validateExportData, List.append_eq_nil, List.mem_append,
      ite_singleton_eq_nil, mem_ite_singleton, Bool.and_eq_true, Bool.not_eq_true',
      and_assoc]

theorem getLine_setLine_same (l : Lines) (t : LineName) (v : Option ℤ) :
    getLine (setLine l t v) t = v := by
  cases t <;> rfl

theorem getLine_setLine_other (l : Lines) (t u : LineName) (v : Option ℤ) (h : u ≠ t) :
    getLine (setLine l t v) u = getLine l u := by
  cases t <;> cases u <;> first | rfl | exact absurd rfl h

theorem letterLines_setLine (l : Lines) (t : LineName) (v : Option ℤ) :
    (setLine l t v).letterLines = l.letterLines := by
  cases t <;> rfl

/-- The manual-input state of the C8 scenarios: headerBottom already
placed at 50. -/
def stateC8 : MIState := ⟨{ emptyLines with headerBottom := some 50 }, none⟩

/-- C8 counterexample: the non-integer entry "3.7" is not rejected
without mutation; parseInt truncates it to 3, which is stored, changing
the line state. -/
theorem claim_C8_counterexample :
    jsParseInt "3.7" = some 3 ∧
    (updateLineCoordinate (some ⟨800, 600⟩) stateC8 LineName.headerBottom "3.7").lines.headerBottom
      = some 3 ∧
    (updateLineCoordinate (some ⟨800, 600⟩) stateC8 LineName.headerBottom "3.7").lines
      ≠ stateC8.lines := by
  exact ⟨by decide, by decide, by decide⟩

/-- C8 amended: manual entry stores parseInt's integer prefix — a
decimal string like "3.7" is truncated and its integer part stored; a
string with no leading integer clears the target line exactly as an
empty entry does, leaving every other line untouched; a parsed value
that is negative or out of bounds (the bound is the image height for
horizontal lines and the width for vertical ones) is rejected with an
error message and no line mutation. -/
theorem claim_C8_amended_manual_set (d : Dims) (s : MIState) (t : LineName) (v : String) :
    (jsParseInt v = none →
      getLine (updateLineCoordinate (some d) s t v).lines t = none ∧
      (∀ u, u ≠ t →
        getLine (updateLineCoordinate (some d) s t v).lines u = getLine s.lines u) ∧
      (updateLineCoordinate (some d) s t v).lines.letterLines = s.lines.letterLines) ∧
    (∀ n, jsParseInt v = some n →
      validateCoordinate (some d) n (isHorizontalLine t) = false →
      (updateLineCoordinate (some d) s t v).lines = s.lines) ∧
    (∀ n, jsParseInt v = some n →
      validateCoordinate (some d) n (isHorizontalLine t) = true →
      getLine (updateLineCoordinate (some d) s t v).lines t = some n ∧
      (∀ u, u ≠ t →
        getLine (updateLineCoordinate (some d) s t v).lines u = getLine s.lines u) ∧
      (updateLineCoordinate (some d) s t v).error = none) ∧
    (∀ (n : ℤ) (dim : Bool), validateCoordinate (some d) n dim = true ↔
      (0 ≤ n ∧ n ≤ if dim then d.height else d.width)) := by
  refine ⟨?_, ?_, ?_, ?_⟩
  · intro h
    simp only [updateLineCoordinate, h]
    exact ⟨getLine_setLine_same _ _ _,
      fun u hu => getLine_setLine_other _ _ _ _ hu, letterLines_setLine _ _ _⟩
  · intro n hn hval
    simp only [updateLineCoordinate, hn, hval, Bool.not_false, if_true]
  · intro n hn hval
    simp only [updateLineCoordinate, hn, hval, Bool.not_true, if_false]
    exact ⟨getLine_setLine_same _ _ _,
      fun u hu => getLine_setLine_other _ _ _ _ hu, rfl⟩
  · intro n dim
    simp [validateCoordinate]

/-- Witness for C8 (amended): clearing on "abc", rejecting "-5" without
mutation, storing "42". -/
theorem claim_C8_witness :
    getLine (updateLineCoordinate (some ⟨800, 600⟩) stateC8 LineName.headerBottom "abc").lines
        LineName.headerBottom = none ∧
    (updateLineCoordinate (some ⟨800, 600⟩) stateC8 LineName.footerTop "-5").lines
      = stateC8.lines ∧
    getLine (updateLineCoordinate (some ⟨800, 600⟩) stateC8 LineName.textLine "42").lines
        LineName.textLine = some 42 :=
  ⟨((claim_C8_amended_manual_set ⟨800, 600⟩ stateC8 LineName.headerBottom "abc").1
      (by decide)).1,
   (claim_C8_amended_manual_set ⟨800, 600⟩ stateC8 LineName.footerTop "-5").2.1
      (-5) (by decide) (by decide),
   ((claim_C8_amended_manual_set ⟨800, 600⟩ stateC8 LineName.textLine "42").2.2.1
      42 (by decide) (by decide)).1⟩

/-- C9 counterexample: 301 is within 1 pixel of the existing 300 but is
inserted anyway; the code skips exact duplicates only. -/
theorem claim_C9_counterexample :
    |(301 : ℤ) - 300| ≤ 1 ∧
    (addLetterLine (some ⟨800, 600⟩)
        (addLetterLine (some ⟨800, 600⟩) ⟨emptyLines, none⟩ "300") "301").lines.letterLines
      = [300, 301] ∧
    ([300, 301] : List ℤ) ≠ [300] := by
  exact ⟨by decide, by decide, by decide⟩

theorem insertionSort_chain_lt (l : List ℤ) (n : ℤ)
    (hnd : List.Chain' (· < ·) l) (hn : n ∉ l) :
    List.Chain' (· < ·) (List.insertionSort (· ≤ ·) (l ++ [n])) := by
  have hperm : List.Perm (List.insertionSort (· ≤ ·) (l ++ [n])) (l ++ [n]) :=
    List.perm_insertionSort _ _
  have hnd0 : (l ++ [n]).Nodup := by
    rw [List.nodup_append]
    refine ⟨?_, List.nodup_singleton n, ?_⟩
    · exact List.Pairwise.imp ne_of_lt (List.chain'_iff_pairwise.mp hnd)
    · intro a ha hb
      rw [List.mem_singleton] at hb
      subst hb
      exact hn ha
  have hndL : (List.insertionSort (· ≤ ·) (l ++ [n])).Nodup :=
    hperm.nodup_iff.mpr hnd0
  have hsorted : List.Sorted (· ≤ ·) (List.insertionSort (· ≤ ·) (l ++ [n])) :=
    List.sorted_insertionSort _ _
  rw [List.chain'_iff_pairwise]
  exact (hsorted.and hndL).imp fun h => lt_of_le_of_ne h.1 h.2

/-- C9 amended: addLetterLine keeps the list ascending and
duplicate-free; a value outside the image width is rejected with an
error and no list change; an exact duplicate is silently ignored
(whole state unchanged); but an x within 1 pixel of an existing entry
and not equal to it is inserted, not rejected; adding 300 twice leaves
a single entry. -/
theorem claim_C9_amended_letter_lines (d : Dims) (s : MIState) (v : String) (n : ℤ) :
    (jsParseInt v = some n → validateCoordinate (some d) n false = true →
      n ∈ s.lines.letterLines → addLetterLine (some d) s v = s) ∧
    (jsParseInt v = some n → validateCoordinate (some d) n false = false →
      (addLetterLine (some d) s v).lines = s.lines) ∧
    (jsParseInt v = some n → validateCoordinate (some d) n false = true →
      n ∉ s.lines.letterLines → List.Chain' (· < ·) s.lines.letterLines →
      List.Chain' (· < ·) (addLetterLine (some d) s v).lines.letterLines ∧
      n ∈ (addLetterLine (some d) s v).lines.letterLines) ∧
    (addLetterLine (some ⟨800, 600⟩)
        (addLetterLine (some ⟨800, 600⟩) ⟨emptyLines, none⟩ "300") "300").lines.letterLines.length
      = 1 := by
  refine ⟨?_, ?_, ?_, by decide⟩
  · intro hn hval hmem
    simp [addLetterLine, hn, hval, hmem]
  · intro hn hval
    simp only [addLetterLine, hn, hval, Bool.not_false, if_true]
  · intro hn hval hmem hchain
    simp only [addLetterLine, hn, hval, Bool.not_true, if_false, if_neg hmem]
    constructor
    · exact insertionSort_chain_lt _ _ hchain hmem
    · exact (List.perm_insertionSort _ _).mem_iff.mpr
        (List.mem_append.mpr (Or.inr (List.mem_singleton_self n)))

/-- The letter-line state used by the C9 witness: one entry at 300. -/
def stateC9 : MIState := ⟨{ emptyLines with letterLines := [300] }, none⟩

/-- Witness for C9 (amended): re-adding 300 is a no-op; adding 301 keeps
the list strictly ascending and contains 301. -/
theorem claim_C9_witness :
    addLetterLine (some ⟨800, 600⟩) stateC9 "300" = stateC9 ∧
    List.Chain' (· < ·) (addLetterLine (some ⟨800, 600⟩) stateC9 "301").lines.letterLines ∧
    (301 : ℤ) ∈ (addLetterLine (some ⟨800, 600⟩) stateC9 "301").lines.letterLines :=
  ⟨(claim_C9_amended_letter_lines ⟨800, 600⟩ stateC9 "300" 300).1
      (by decide) (by decide) (by decide),
   ((claim_C9_amended_letter_lines ⟨800, 600⟩ stateC9 "301" 301).2.2.1
      (by decide) (by decide) (by decide) (List.chain'_singleton 300)).1,
   ((claim_C9_amended_letter_lines ⟨800, 600⟩ stateC9 "301" 301).2.2.1
      (by decide) (by decide) (by decide) (List.chain'_singleton 300)).2⟩

end StampMaker
